import Mathlib

/-!
# urlshort: path-to-URL redirect handlers

A shallow embedding of `2_urlshort/handler.go`.

* A Go `map[string]string` is a finite map (`Finmap`): finitely many entries, at most one
  per key, no order.  A `range` statement over a map visits every entry exactly once in an
  order chosen by the Go runtime; that choice is the `RangeOrder` argument of a handler.
* A handler run is recorded as the sequence of calls it makes on the outside world
  (`Effect`): text printed by `fmt`, `http.Redirect`, `ServeHTTP` on another handler,
  `Write` on the response writer, together with the way the run ends (`Result`):
  a normal return or a Go panic.
* `http.Redirect` is a primitive of `net/http`: a run records the call with its arguments.
* `yaml.Unmarshal`, `json.Unmarshal` and the `bolt` store are libraries outside the
  repository; the parsers are parameters, the store is given by what a read-only
  transaction observes.
* Go strings, and the keys and values of a bucket converted by `string(k)`, are Lean
  strings; the code only compares and concatenates them.
-/

set_option linter.unusedVariables false

namespace urlshort

/-! ## Go values -/

/-- Go `error` values, identified with the text their `Error()` method returns. -/
abbrev Error := String

/-- Go `[]byte`. -/
abbrev Bytes := List UInt8

/-- Go `map[string]string`. -/
abbrev GoMap := Finmap (fun _ : String => String)

/-- One key/value entry of a `map[string]string`. -/
abbrev Entry := Σ _ : String, String

/-- The order in which a `range` statement visits the entries of a map, as chosen by the
Go runtime. -/
abbrev RangeOrder := GoMap → List Entry

/-- The list `order m` visits every entry of `m` exactly once. -/
def RangeOrder.Enumerates (order : RangeOrder) (m : GoMap) : Prop :=
  (↑(order m) : Multiset Entry) = m.entries

instance (order : RangeOrder) (m : GoMap) : Decidable (order.Enumerates m) :=
  inferInstanceAs (Decidable ((↑(order m) : Multiset Entry) = m.entries))

/-- The part of `net/url.URL` carried along with a request. -/
structure URL where
  Path : String
  RawQuery : String
deriving DecidableEq, Repr

/-- The part of `net/http.Request` carried along with a request. -/
structure Request where
  Method : String
  URL : urlshort.URL
deriving DecidableEq, Repr

/-- The constant `http.StatusMovedPermanently`. -/
def StatusMovedPermanently : Nat := 301

/-- The calls a handler makes on the outside world; `η` is the type of the handlers it can
delegate to. -/
inductive Effect (η : Type) where
  /-- Text written to standard output by `fmt.Println` or `fmt.Printf`. -/
  | Print (text : String)
  /-- The call `http.Redirect(w, r, url, code)`. -/
  | Redirect (r : Request) (url : String) (code : Nat)
  /-- The call `h.ServeHTTP(w, r)`. -/
  | ServeHTTP (h : η) (r : Request)
  /-- The call `w.Write([]byte(body))`. -/
  | Write (body : String)
deriving DecidableEq, Repr

/-- How a Go call ends: it returns a value or it panics. -/
inductive Result (α : Type) where
  | ret (a : α)
  | panic (msg : String)
deriving DecidableEq, Repr

/-- A finished Go call: the effects it had, in order, and how it ended. -/
structure Go (η α : Type) where
  trace : List (Effect η)
  result : Result α

/-- A call that has no effect and returns `a`. -/
def Go.ret {η α : Type} (a : α) : Go η α := ⟨[], Result.ret a⟩

/-- Perform the effect `e`, then continue as `k`. -/
def Go.emit {η α : Type} (e : Effect η) (k : Go η α) : Go η α := ⟨e :: k.trace, k.result⟩

/-- The message of the run-time panic raised by a nil pointer dereference. -/
def nilDereference : String :=
  "runtime error: invalid memory address or nil pointer dereference"

/-- Go `http.HandlerFunc`: one run serves one request. -/
abbrev HandlerFunc (η : Type) := RangeOrder → Request → Go η Unit

/-! ## `handler.go` -/

/-- The struct `UrlMap`. -/
structure UrlMap where
  Path : String
  Url : String
deriving DecidableEq, Repr

/-- The `for path, url := range pathsToUrls` loop of `MapHandler` over the entries still to
be visited, followed by the call of the fallback when the loop runs to its end. -/
def MapHandler.range {η : Type} (fallback : η) (r : Request) : List Entry → Go η Unit
  | [] => Go.emit (Effect.ServeHTTP fallback r) (Go.ret ())
  | ⟨path, url⟩ :: rest =>
    Go.emit (Effect.Print (path ++ " " ++ url ++ "\n"))
      (if r.URL.Path ≠ path then
        MapHandler.range fallback r rest
      else
        Go.emit (Effect.Redirect r url StatusMovedPermanently) (Go.ret ()))

/-- The function `MapHandler`. -/
def MapHandler {η : Type} (pathsToUrls : GoMap) (fallback : η) : HandlerFunc η :=
  fun order r =>
    Go.emit (Effect.Print ("incoming request: " ++ r.URL.Path ++ "\n"))
      (MapHandler.range fallback r (order pathsToUrls))

/-- The function `buildMap`. -/
def buildMap (parsedYaml : List UrlMap) : GoMap :=
  parsedYaml.foldl (fun urlPathMap urlMap => urlPathMap.insert urlMap.Path urlMap.Url) ∅

/-- A document parser, `yaml.Unmarshal` or `json.Unmarshal` into a `[]UrlMap` that starts
out nil: the slice it leaves behind and the error it returns. -/
abbrev Unmarshal := Bytes → List UrlMap × Option Error

/-- The function `YAMLHandler`; the two components of the returned value are the Go results
`(http.HandlerFunc, error)`, `none` standing for nil. -/
def YAMLHandler {η : Type} (yamlUnmarshal : Unmarshal) (yml : Bytes) (fallback : η) :
    Go η (Option (HandlerFunc η) × Option Error) :=
  let parsedYaml := (yamlUnmarshal yml).1
  match (yamlUnmarshal yml).2 with
  | some err => Go.ret (none, some err)
  | none =>
    let pathMap := buildMap parsedYaml
    Go.ret (some (MapHandler pathMap fallback), none)

/-- The text `fmt.Println` prints for a `[]UrlMap` value. -/
def formatUrlMaps (l : List UrlMap) : String :=
  "[" ++ " ".intercalate (l.map fun u => "\x7b" ++ u.Path ++ " " ++ u.Url ++ "\x7d") ++ "]"

/-- The function `JSONHandler`; the two components of the returned value are the Go results
`(http.HandlerFunc, error)`, `none` standing for nil. -/
def JSONHandler {η : Type} (jsonUnmarshal : Unmarshal) (jsn : Bytes) (fallback : η) :
    Go η (Option (HandlerFunc η) × Option Error) :=
  let parsedJson := (jsonUnmarshal jsn).1
  match (jsonUnmarshal jsn).2 with
  | some err => Go.ret (none, some err)
  | none =>
    Go.emit (Effect.Print ("parsedJson " ++ formatUrlMaps parsedJson ++ "\n"))
      (let pathMap := buildMap parsedJson
       Go.ret (some (MapHandler pathMap fallback), none))

/-! ## The `bolt` store as seen by `DBHandler` -/

/-- A bucket: its key/value pairs in the order a cursor yields them, `First` giving the
head and each `Next` the following pair, with a nil key after the last one. -/
structure Bucket where
  pairs : List (String × String)
deriving DecidableEq, Repr

/-- A read-only transaction: the named buckets it can see. -/
structure Tx where
  buckets : List (String × Bucket)
deriving DecidableEq, Repr

/-- The method `tx.Bucket(name)`; `none` is the nil bucket returned for a missing name. -/
def Tx.Bucket (tx : Tx) (name : String) : Option urlshort.Bucket :=
  tx.buckets.lookup name

/-- A store handle: `Begin` is what opening a read-only transaction on it gives. -/
structure DB where
  Begin : Except Error Tx

/-- The method `db.View(fn)`: the error of a transaction that cannot be opened is returned
without calling `fn`; otherwise `fn` runs in the transaction, whose rollback afterwards
returns nil, and the error or panic of `fn` is passed through. -/
def DB.View {η : Type} (db : DB) (fn : Tx → Go η (Option Error)) : Go η (Option Error) :=
  match db.Begin with
  | Except.error err => Go.ret (some err)
  | Except.ok t =>
    let out := fn t
    match out.result with
    | Result.panic msg => ⟨out.trace, Result.panic msg⟩
    | Result.ret (some err) => ⟨out.trace, Result.ret (some err)⟩
    | Result.ret none => ⟨out.trace, Result.ret none⟩

/-- The cursor loop `for k, v := c.First(); k != nil; k, v = c.Next()` of `DBHandler` over
the pairs still to be yielded, followed by the `return nil` after the loop. -/
def DBHandler.scan {η : Type} (r : Request) : List (String × String) → Go η (Option Error)
  | [] => Go.ret none
  | (k, v) :: rest =>
    Go.emit (Effect.Print ("key=" ++ k ++ ", value=" ++ v ++ "\n"))
      (if k ≠ r.URL.Path then
        DBHandler.scan r rest
      else
        Go.emit (Effect.Redirect r v StatusMovedPermanently) (Go.ret none))

/-- The function literal `DBHandler` passes to `db.View`.  The bucket is not tested against
nil before `b.Cursor()`, which dereferences it. -/
def DBHandler.txFunc {η : Type} (r : Request) (tx : Tx) : Go η (Option Error) :=
  match tx.Bucket "urls" with
  | none => ⟨[], Result.panic nilDereference⟩
  | some b => DBHandler.scan r b.pairs

/-- The function `DBHandler`. -/
def DBHandler {η : Type} (db : DB) (fallback : η) : HandlerFunc η :=
  fun _ r =>
    let view : Go η (Option Error) := db.View (DBHandler.txFunc r)
    match view.result with
    | Result.panic msg => ⟨view.trace, Result.panic msg⟩
    | Result.ret (some err) => ⟨view.trace ++ [Effect.Write err], Result.ret ()⟩
    | Result.ret none => ⟨view.trace, Result.ret ()⟩

/-! ## Observations on a run -/

/-- The calls of a run other than printing to standard output. -/
def httpTrace {η α : Type} (run : Go η α) : List (Effect η) :=
  run.trace.filter fun e => match e with
    | Effect.Print _ => false
    | _ => true

/-- The text a run prints to standard output, one item per `fmt` call. -/
def stdout {η α : Type} (run : Go η α) : List String :=
  run.trace.filterMap fun e => match e with
    | Effect.Print s => some s
    | _ => none

/-- The number of `http.Redirect` calls of a run. -/
def redirects {η α : Type} (run : Go η α) : Nat :=
  run.trace.countP fun e => match e with
    | Effect.Redirect _ _ _ => true
    | _ => false

/-- The number of times a run calls `ServeHTTP` on the handler `fallback`. -/
def fallbackCalls {η α : Type} [DecidableEq η] (fallback : η) (run : Go η α) : Nat :=
  run.trace.countP fun e => match e with
    | Effect.ServeHTTP h _ => decide (h = fallback)
    | _ => false

/-- The number of `Write` calls of a run on the response writer. -/
def bodyWrites {η α : Type} (run : Go η α) : Nat :=
  run.trace.countP fun e => match e with
    | Effect.Write _ => true
    | _ => false

/-! ## The indexed lookup of the specification -/

/-- Spec side of the refinement: an indexed lookup of the request path in the rule set,
redirecting with 301 to the target found and delegating to the fallback when there is
none. -/
def indexedLookup {η : Type} (R : GoMap) (fallback : η) (r : Request) : List (Effect η) :=
  match R.lookup r.URL.Path with
  | some url => [Effect.Redirect r url StatusMovedPermanently]
  | none => [Effect.ServeHTTP fallback r]

/-! ## Example inputs -/

/-- A GET request for the path `p`. -/
def get (p : String) : Request := ⟨"GET", ⟨p, ""⟩⟩

/-- The rule set with the two example paths `/urlshort-go` and `/yaml-godoc`. -/
def exampleRules : GoMap :=
  Finmap.insert "/urlshort-go" "https://github.com/gophercises/urlshort"
    (Finmap.insert "/yaml-godoc" "https://pkg.go.dev/gopkg.in/yaml.v2" ∅)

/-- A run of `range` that visits `/yaml-godoc` before `/urlshort-go`. -/
def yamlFirst : RangeOrder := fun _ =>
  [⟨"/yaml-godoc", "https://pkg.go.dev/gopkg.in/yaml.v2"⟩,
   ⟨"/urlshort-go", "https://github.com/gophercises/urlshort"⟩]

/-- A run of `range` that visits `/urlshort-go` before `/yaml-godoc`. -/
def urlshortFirst : RangeOrder := fun _ =>
  [⟨"/urlshort-go", "https://github.com/gophercises/urlshort"⟩,
   ⟨"/yaml-godoc", "https://pkg.go.dev/gopkg.in/yaml.v2"⟩]

/-- The two records of the example document, as a YAML parser yields them. -/
def yamlRecords : List UrlMap :=
  [⟨"/urlshort-go", "https://github.com/gophercises/urlshort"⟩,
   ⟨"/yaml-godoc", "https://pkg.go.dev/gopkg.in/yaml.v2"⟩]

/-- The same two records in the opposite order. -/
def jsonRecords : List UrlMap :=
  [⟨"/yaml-godoc", "https://pkg.go.dev/gopkg.in/yaml.v2"⟩,
   ⟨"/urlshort-go", "https://github.com/gophercises/urlshort"⟩]

/-- A toy parser: the empty document is an error, the document `[1]` gives `yamlRecords`,
any other gives `jsonRecords`. -/
def toyUnmarshal : Unmarshal := fun doc =>
  if doc = [] then ([], some "unexpected end of input")
  else if doc = [1] then (yamlRecords, none)
  else (jsonRecords, none)

/-- A store whose bucket `urls` maps `/go` to `https://golang.org`. -/
def goStore : DB := ⟨Except.ok ⟨[("urls", ⟨[("/go", "https://golang.org")]⟩)]⟩⟩

/-- A store whose bucket `urls` holds three pairs. -/
def threeStore : DB :=
  ⟨Except.ok ⟨[("urls", ⟨[("/a", "https://a.example"), ("/go", "https://golang.org"),
    ("/z", "https://z.example")]⟩)]⟩⟩

/-- A store that has a bucket `users` and no bucket `urls`. -/
def noUrlsStore : DB := ⟨Except.ok ⟨[("users", ⟨[("/go", "https://golang.org")]⟩)]⟩⟩

/-- A store on which no transaction can be opened. -/
def closedStore : DB := ⟨Except.error "database not open"⟩

/-! ## Supporting lemmas -/

theorem range_result {η : Type} (fallback : η) (r : Request) (es : List Entry) :
    (MapHandler.range fallback r es).result = Result.ret () := by
  induction es with
  | nil => rfl
  | cons e rest ih =>
    obtain ⟨path, url⟩ := e
    by_cases h : r.URL.Path = path <;> simp [MapHandler.range, Go.emit, Go.ret, h, ih]

theorem httpTrace_range_of_absent {η : Type} (fallback : η) (r : Request) (es : List Entry)
    (h : ∀ e ∈ es, e.1 ≠ r.URL.Path) :
    httpTrace (MapHandler.range fallback r es) = [Effect.ServeHTTP fallback r] := by
  induction es with
  | nil => rfl
  | cons e rest ih =>
    obtain ⟨path, url⟩ := e
    have hne : r.URL.Path ≠ path := fun heq => h ⟨path, url⟩ (List.mem_cons_self _ _) heq.symm
    have ih' := ih fun e he => h e (List.mem_cons_of_mem _ he)
    simpa [MapHandler.range, Go.emit, httpTrace, hne] using ih'

theorem httpTrace_range_of_present {η : Type} (fallback : η) (r : Request) (es : List Entry)
    (url : String) (hnd : es.NodupKeys) (hmem : (⟨r.URL.Path, url⟩ : Entry) ∈ es) :
    httpTrace (MapHandler.range fallback r es) =
      [Effect.Redirect r url StatusMovedPermanently] := by
  induction es with
  | nil => simp at hmem
  | cons e rest ih =>
    obtain ⟨path, url'⟩ := e
    rw [List.nodupKeys_cons] at hnd
    by_cases hp : r.URL.Path = path
    · subst hp
      rcases List.mem_cons.1 hmem with heq | hrest
      · cases heq
        simp [MapHandler.range, Go.emit, Go.ret, httpTrace]
      · exact absurd (List.mem_keys_of_mem hrest) hnd.1
    · rcases List.mem_cons.1 hmem with heq | hrest
      · cases heq
        exact absurd rfl hp
      · have ih' := ih hnd.2 hrest
        simpa [MapHandler.range, Go.emit, httpTrace, hp] using ih'

theorem RangeOrder.Enumerates.nodupKeys {order : RangeOrder} {R : GoMap} (h : order.Enumerates R) :
    (order R).NodupKeys := by
  have := R.nodupKeys
  rw [← h] at this
  exact Multiset.coe_nodupKeys.1 this

theorem RangeOrder.Enumerates.mem_iff {order : RangeOrder} {R : GoMap} (h : order.Enumerates R)
    (k v : String) : (⟨k, v⟩ : Entry) ∈ order R ↔ R.lookup k = some v := by
  have : (⟨k, v⟩ : Entry) ∈ R.entries ↔ R.lookup k = some v := by
    rw [← Finmap.mem_lookup_iff]
    exact Option.mem_def
  rw [← this, ← h]
  exact Multiset.mem_coe.symm

theorem RangeOrder.Enumerates.absent {order : RangeOrder} {R : GoMap} (h : order.Enumerates R)
    (k : String) (hk : R.lookup k = none) : ∀ e ∈ order R, e.1 ≠ k := by
  rintro ⟨k', v⟩ he hkk
  simp only at hkk
  subst hkk
  rw [h.mem_iff, hk] at he
  exact Option.noConfusion he

theorem exists_enumeration (R : GoMap) : ∃ order : RangeOrder, order.Enumerates R := by
  obtain ⟨l, hl⟩ := Quot.exists_rep R.entries
  exact ⟨fun _ => l, hl⟩

theorem httpTrace_MapHandler {η : Type} (R : GoMap) (fallback : η) (order : RangeOrder)
    (r : Request) (h : order.Enumerates R) :
    httpTrace (MapHandler R fallback order r) = indexedLookup R fallback r := by
  have hstep : httpTrace (MapHandler R fallback order r) =
      httpTrace (MapHandler.range fallback r (order R)) := by
    simp [MapHandler, Go.emit, httpTrace]
  rw [hstep]
  unfold indexedLookup
  cases hl : R.lookup r.URL.Path with
  | none => exact httpTrace_range_of_absent fallback r _ (h.absent _ hl)
  | some url =>
    exact httpTrace_range_of_present fallback r _ url h.nodupKeys ((h.mem_iff _ _).2 hl)

theorem lookup_foldl_insert (L : List UrlMap) (acc : GoMap) (p : String) :
    (L.foldl (fun urlPathMap urlMap => urlPathMap.insert urlMap.Path urlMap.Url) acc).lookup p =
      match L.reverse.find? (fun u => u.Path = p) with
      | some u => some u.Url
      | none => acc.lookup p := by
  induction L generalizing acc with
  | nil => rfl
  | cons a L ih =>
    rw [List.foldl_cons, ih, List.reverse_cons, List.find?_append]
    cases hfind : L.reverse.find? (fun u => u.Path = p) with
    | some u => rfl
    | none =>
      by_cases hp : a.Path = p
      · subst hp
        simp [Finmap.lookup_insert]
      · have hp' : p ≠ a.Path := fun h => hp h.symm
        simp [hp, Finmap.lookup_insert_of_ne _ hp']

theorem lookup_buildMap (L : List UrlMap) (p : String) :
    (buildMap L).lookup p = (L.reverse.find? (fun u => u.Path = p)).map UrlMap.Url := by
  unfold buildMap
  rw [lookup_foldl_insert]
  cases L.reverse.find? (fun u => u.Path = p) <;> simp

theorem mem_buildMap (L : List UrlMap) (p : String) :
    p ∈ buildMap L ↔ p ∈ L.map UrlMap.Path := by
  rw [← not_iff_not, ← Finmap.lookup_eq_none, lookup_buildMap]
  simp

theorem buildMap_perm (L1 L2 : List UrlMap) (hperm : L1.Perm L2)
    (hnodup : (L1.map UrlMap.Path).Nodup) : buildMap L1 = buildMap L2 := by
  unfold buildMap
  refine hperm.foldl_eq' ?_ ∅
  intro x hx y hy z
  by_cases hxy : x.Path = y.Path
  · have : x = y := List.inj_on_of_nodup_map hnodup hx hy hxy
    subst this
    rfl
  · exact Finmap.insert_insert_of_ne z hxy

theorem scan_result {η : Type} (r : Request) (pairs : List (String × String)) :
    (DBHandler.scan r pairs : Go η (Option Error)).result = Result.ret none := by
  induction pairs with
  | nil => rfl
  | cons kv rest ih =>
    obtain ⟨k, v⟩ := kv
    by_cases h : k = r.URL.Path <;> simp [DBHandler.scan, Go.emit, Go.ret, h, ih]

theorem scan_trace_of_absent {η : Type} (r : Request) (pairs : List (String × String))
    (h : ∀ kv ∈ pairs, kv.1 ≠ r.URL.Path) :
    (DBHandler.scan r pairs : Go η (Option Error)).trace =
      pairs.map fun kv => Effect.Print ("key=" ++ kv.1 ++ ", value=" ++ kv.2 ++ "\n") := by
  induction pairs with
  | nil => rfl
  | cons kv rest ih =>
    obtain ⟨k, v⟩ := kv
    have hk : k ≠ r.URL.Path := h (k, v) (List.mem_cons_self _ _)
    have ih' := ih fun kv hkv => h kv (List.mem_cons_of_mem _ hkv)
    simp [DBHandler.scan, Go.emit, hk, ih']

theorem scan_trace_of_first_match {η : Type} (r : Request) (pre post : List (String × String))
    (v : String) (h : ∀ kv ∈ pre, kv.1 ≠ r.URL.Path) :
    (DBHandler.scan r (pre ++ (r.URL.Path, v) :: post) : Go η (Option Error)).trace =
      (pre ++ [(r.URL.Path, v)]).map
        (fun kv => Effect.Print ("key=" ++ kv.1 ++ ", value=" ++ kv.2 ++ "\n")) ++
      [Effect.Redirect r v StatusMovedPermanently] := by
  induction pre with
  | nil => simp [DBHandler.scan, Go.emit, Go.ret]
  | cons kv rest ih =>
    obtain ⟨k, w⟩ := kv
    have hk : k ≠ r.URL.Path := h (k, w) (List.mem_cons_self _ _)
    have ih' := ih fun kv hkv => h kv (List.mem_cons_of_mem _ hkv)
    simp [DBHandler.scan, Go.emit, hk, ih']

theorem exists_first_match (p : String) (pairs : List (String × String))
    (h : ∃ kv ∈ pairs, kv.1 = p) :
    ∃ pre v post, pairs = pre ++ (p, v) :: post ∧ ∀ kv ∈ pre, kv.1 ≠ p := by
  induction pairs with
  | nil => simp at h
  | cons kv rest ih =>
    obtain ⟨k, w⟩ := kv
    by_cases hk : k = p
    · subst hk
      exact ⟨[], w, rest, rfl, by simp⟩
    · obtain ⟨kv', hmem, hkv'⟩ := h
      rcases List.mem_cons.1 hmem with heq | hrest
      · subst heq
        exact absurd hkv' hk
      · obtain ⟨pre, v, post, hsplit, hpre⟩ := ih ⟨kv', hrest, hkv'⟩
        refine ⟨(k, w) :: pre, v, post, by simp [hsplit], ?_⟩
        intro kv hkv
        rcases List.mem_cons.1 hkv with heq | hin
        · subst heq
          exact hk
        · exact hpre kv hin

theorem DBHandler_of_bucket {η : Type} (db : DB) (fallback : η) (order : RangeOrder)
    (r : Request) (tx : Tx) (b : Bucket) (hbegin : db.Begin = Except.ok tx)
    (hbucket : tx.Bucket "urls" = some b) :
    DBHandler db fallback order r = ⟨(DBHandler.scan r b.pairs : Go η (Option Error)).trace,
      Result.ret ()⟩ := by
  have hres := @scan_result η r b.pairs
  simp [DBHandler, DB.View, DBHandler.txFunc, hbegin, hbucket, hres]

theorem DBHandler_of_missing_bucket {η : Type} (db : DB) (fallback : η) (order : RangeOrder)
    (r : Request) (tx : Tx) (hbegin : db.Begin = Except.ok tx)
    (hbucket : tx.Bucket "urls" = none) :
    DBHandler db fallback order r = ⟨[], Result.panic nilDereference⟩ := by
  simp [DBHandler, DB.View, DBHandler.txFunc, hbegin, hbucket]

theorem DBHandler_of_begin_error {η : Type} (db : DB) (fallback : η) (order : RangeOrder)
    (r : Request) (err : Error) (hbegin : db.Begin = Except.error err) :
    DBHandler db fallback order r = ⟨[Effect.Write err], Result.ret ()⟩ := by
  simp [DBHandler, DB.View, hbegin, Go.ret]

theorem View_txFunc_result {η : Type} (db : DB) (r : Request) :
    (∀ err, db.Begin = Except.error err →
      (db.View (DBHandler.txFunc r) : Go η (Option Error)).result = Result.ret (some err)) ∧
    (∀ tx b, db.Begin = Except.ok tx → tx.Bucket "urls" = some b →
      (db.View (DBHandler.txFunc r) : Go η (Option Error)).result = Result.ret none) ∧
    (∀ tx, db.Begin = Except.ok tx → tx.Bucket "urls" = none →
      (db.View (DBHandler.txFunc r) : Go η (Option Error)).result =
        Result.panic nilDereference) := by
  refine ⟨?_, ?_, ?_⟩
  · intro err hbegin
    simp [DB.View, hbegin, Go.ret]
  · intro tx b hbegin hbucket
    have hres := @scan_result η r b.pairs
    simp [DB.View, DBHandler.txFunc, hbegin, hbucket, hres]
  · intro tx hbegin hbucket
    simp [DB.View, DBHandler.txFunc, hbegin, hbucket]

theorem scan_no_write {η : Type} (r : Request) (pairs : List (String × String))
    (body : String) :
    Effect.Write body ∉ (DBHandler.scan r pairs : Go η (Option Error)).trace := by
  induction pairs with
  | nil => simp [DBHandler.scan, Go.ret]
  | cons kv rest ih =>
    obtain ⟨k, v⟩ := kv
    by_cases h : k = r.URL.Path
    · simp [DBHandler.scan, Go.emit, Go.ret, h]
    · simpa [DBHandler.scan, Go.emit, h] using ih

theorem DBHandler_never_calls_ServeHTTP {η : Type} (db : DB) (fallback : η)
    (order : RangeOrder) (r : Request) (h : η) (r' : Request) :
    Effect.ServeHTTP h r' ∉ (DBHandler db fallback order r).trace := by
  have hscan : ∀ pairs : List (String × String),
      Effect.ServeHTTP h r' ∉ (DBHandler.scan r pairs : Go η (Option Error)).trace := by
    intro pairs
    induction pairs with
    | nil => simp [DBHandler.scan, Go.ret]
    | cons kv rest ih =>
      obtain ⟨k, v⟩ := kv
      by_cases hk : k = r.URL.Path
      · simp [DBHandler.scan, Go.emit, Go.ret, hk]
      · simpa [DBHandler.scan, Go.emit, hk] using ih
  cases hbegin : db.Begin with
  | error err => simp [DBHandler_of_begin_error db fallback order r err hbegin]
  | ok tx =>
    cases hbucket : tx.Bucket "urls" with
    | none => simp [DBHandler_of_missing_bucket db fallback order r tx hbegin hbucket]
    | some b =>
      rw [DBHandler_of_bucket db fallback order r tx b hbegin hbucket]
      exact hscan b.pairs

/-! ## Outcomes of a run -/

theorem outcome_counts_of_httpTrace {η α : Type} [DecidableEq η] (fallback : η)
    (run : Go η α) :
    redirects run = redirects (⟨httpTrace run, run.result⟩ : Go η α) ∧
    fallbackCalls fallback run = fallbackCalls fallback (⟨httpTrace run, run.result⟩ : Go η α) ∧
    bodyWrites run = bodyWrites (⟨httpTrace run, run.result⟩ : Go η α) := by
  unfold redirects fallbackCalls bodyWrites httpTrace
  simp only [List.countP_filter]
  refine ⟨?_, ?_, ?_⟩ <;>
  · congr 1
    funext e
    cases e <;> simp

/-- Every run of a handler built by `MapHandler` ends in exactly one of the outcomes
redirected and fallback-invoked, and writes nothing to the body itself. -/
theorem MapHandler_exactly_one_outcome {η : Type} [DecidableEq η] (R : GoMap)
    (fallback : η) (order : RangeOrder) (r : Request) (horder : order.Enumerates R) :
    bodyWrites (MapHandler R fallback order r) = 0 ∧
    ((redirects (MapHandler R fallback order r) = 1 ∧
        fallbackCalls fallback (MapHandler R fallback order r) = 0) ∨
      (redirects (MapHandler R fallback order r) = 0 ∧
        fallbackCalls fallback (MapHandler R fallback order r) = 1)) := by
  obtain ⟨hr, hf, hw⟩ := outcome_counts_of_httpTrace fallback (MapHandler R fallback order r)
  rw [hr, hf, hw, httpTrace_MapHandler R fallback order r horder]
  unfold indexedLookup
  cases R.lookup r.URL.Path <;> simp [redirects, fallbackCalls, bodyWrites]

theorem scan_outcomes {η : Type} [DecidableEq η] (fallback : η) (r : Request)
    (pairs : List (String × String)) :
    redirects (DBHandler.scan r pairs : Go η (Option Error)) ≤ 1 ∧
    fallbackCalls fallback (DBHandler.scan r pairs : Go η (Option Error)) = 0 ∧
    bodyWrites (DBHandler.scan r pairs : Go η (Option Error)) = 0 := by
  induction pairs with
  | nil => simp [DBHandler.scan, Go.ret, redirects, fallbackCalls, bodyWrites]
  | cons kv rest ih =>
    obtain ⟨k, v⟩ := kv
    by_cases hk : k = r.URL.Path
    · simp [DBHandler.scan, Go.emit, Go.ret, redirects, fallbackCalls, bodyWrites, hk]
    · simpa [DBHandler.scan, Go.emit, redirects, fallbackCalls, bodyWrites, hk] using ih

/-- No run of a handler built by `DBHandler` has two of the outcomes redirected,
fallback-invoked and error-reported. -/
theorem DBHandler_at_most_one_outcome {η : Type} [DecidableEq η] (db : DB) (fallback : η)
    (order : RangeOrder) (r : Request) :
    redirects (DBHandler db fallback order r) +
      fallbackCalls fallback (DBHandler db fallback order r) +
      bodyWrites (DBHandler db fallback order r) ≤ 1 := by
  cases hbegin : db.Begin with
  | error err =>
    rw [DBHandler_of_begin_error db fallback order r err hbegin]
    simp [redirects, fallbackCalls, bodyWrites]
  | ok tx =>
    cases hbucket : tx.Bucket "urls" with
    | none =>
      rw [DBHandler_of_missing_bucket db fallback order r tx hbegin hbucket]
      simp [redirects, fallbackCalls, bodyWrites]
    | some b =>
      rw [DBHandler_of_bucket db fallback order r tx b hbegin hbucket]
      obtain ⟨h1, h2, h3⟩ := scan_outcomes fallback r b.pairs
      have e1 : redirects (⟨(DBHandler.scan r b.pairs : Go η (Option Error)).trace,
          Result.ret ()⟩ : Go η Unit) = redirects (DBHandler.scan r b.pairs : Go η (Option Error)) := rfl
      have e2 : fallbackCalls fallback (⟨(DBHandler.scan r b.pairs : Go η (Option Error)).trace,
          Result.ret ()⟩ : Go η Unit) =
          fallbackCalls fallback (DBHandler.scan r b.pairs : Go η (Option Error)) := rfl
      have e3 : bodyWrites (⟨(DBHandler.scan r b.pairs : Go η (Option Error)).trace,
          Result.ret ()⟩ : Go η Unit) = bodyWrites (DBHandler.scan r b.pairs : Go η (Option Error)) := rfl
      rw [e1, e2, e3, h2, h3]
      simpa using h1

/-! ## The claims -/

/-- C1: for a rule map `R`, a fallback and a request with path `p`, a run of the handler
`MapHandler R fallback` returns normally and, apart from printing, does exactly one thing:
when `R[p]` is `url` it calls `http.Redirect` with target `url` and status 301 and does not
call the fallback; when `p` is no key of `R` it calls `fallback.ServeHTTP` once, with the
request it was given, and does not redirect. -/
theorem MapHandler_redirects_or_falls_back {η : Type} (R : GoMap) (fallback : η)
    (order : RangeOrder) (r : Request) (horder : order.Enumerates R) :
    (MapHandler R fallback order r).result = Result.ret () ∧
    (∀ url, R.lookup r.URL.Path = some url →
      httpTrace (MapHandler R fallback order r) =
        [Effect.Redirect r url StatusMovedPermanently]) ∧
    (R.lookup r.URL.Path = none →
      httpTrace (MapHandler R fallback order r) = [Effect.ServeHTTP fallback r]) := by
  refine ⟨range_result fallback r (order R), ?_, ?_⟩
  · intro url hurl
    rw [httpTrace_MapHandler R fallback order r horder, indexedLookup, hurl]
  · intro hnone
    rw [httpTrace_MapHandler R fallback order r horder, indexedLookup, hnone]

/-- Witness of C1 on the example rule set: `/yaml-godoc` is redirected to the yaml.v2
page, `/unknown` goes to the fallback. -/
theorem MapHandler_redirects_or_falls_back_witness :
    yamlFirst.Enumerates exampleRules ∧
    httpTrace (MapHandler exampleRules "notFound" yamlFirst (get "/yaml-godoc")) =
      [Effect.Redirect (get "/yaml-godoc") "https://pkg.go.dev/gopkg.in/yaml.v2" 301] ∧
    httpTrace (MapHandler exampleRules "notFound" yamlFirst (get "/unknown")) =
      [Effect.ServeHTTP "notFound" (get "/unknown")] :=
  ⟨by decide,
    (MapHandler_redirects_or_falls_back exampleRules "notFound" yamlFirst (get "/yaml-godoc")
      (by decide)).2.1 "https://pkg.go.dev/gopkg.in/yaml.v2" (by decide),
    (MapHandler_redirects_or_falls_back exampleRules "notFound" yamlFirst (get "/unknown")
      (by decide)).2.2 (by decide)⟩

/-- C2: the key set of `buildMap L` is the set of paths occurring in `L`, the value at a
path is the url of the last record of `L` with that path, and `buildMap []` is the empty
map. -/
theorem buildMap_last_record_wins (L : List UrlMap) :
    (buildMap L).keys = (L.map UrlMap.Path).toFinset ∧
    (∀ p, (buildMap L).lookup p =
      (L.reverse.find? (fun u => u.Path = p)).map UrlMap.Url) ∧
    buildMap [] = ∅ := by
  refine ⟨?_, lookup_buildMap L, rfl⟩
  ext p
  rw [Finmap.mem_keys, mem_buildMap, List.mem_toFinset]

/-- C3: `YAMLHandler` and `JSONHandler` return a non-nil error exactly when the parser
does; then the handler is nil and the error is the parser's, whatever records the parser
left behind; otherwise the error is nil and the handler is `MapHandler` of `buildMap` of
the parsed records. -/
theorem document_handler_fails_iff_parser_fails {η : Type} (unmarshal : Unmarshal)
    (doc : Bytes) (fallback : η) :
    (∃ handler err,
      (YAMLHandler unmarshal doc fallback).result = Result.ret (handler, err) ∧
      (err ≠ none ↔ (unmarshal doc).2 ≠ none) ∧
      (∀ e, (unmarshal doc).2 = some e → handler = none ∧ err = some e) ∧
      ((unmarshal doc).2 = none →
        err = none ∧ handler = some (MapHandler (buildMap (unmarshal doc).1) fallback))) ∧
    (∃ handler err,
      (JSONHandler unmarshal doc fallback).result = Result.ret (handler, err) ∧
      (err ≠ none ↔ (unmarshal doc).2 ≠ none) ∧
      (∀ e, (unmarshal doc).2 = some e → handler = none ∧ err = some e) ∧
      ((unmarshal doc).2 = none →
        err = none ∧ handler = some (MapHandler (buildMap (unmarshal doc).1) fallback))) := by
  cases h : (unmarshal doc).2 with
  | some e =>
    exact ⟨⟨none, some e, by simp [YAMLHandler, h, Go.ret], by simp, by simp, by simp⟩,
      ⟨none, some e, by simp [JSONHandler, h, Go.ret], by simp, by simp, by simp⟩⟩
  | none =>
    exact ⟨⟨some (MapHandler (buildMap (unmarshal doc).1) fallback), none,
        by simp [YAMLHandler, h, Go.ret], by simp, by simp, by simp⟩,
      ⟨some (MapHandler (buildMap (unmarshal doc).1) fallback), none,
        by simp [JSONHandler, h, Go.ret, Go.emit], by simp, by simp, by simp⟩⟩

/-- Witness of C3: on the empty document the toy parser fails and `YAMLHandler` returns
nil and that error; on the document `[1]` it succeeds and `JSONHandler` returns the map
handler of the parsed records. -/
theorem document_handler_fails_iff_parser_fails_witness :
    (toyUnmarshal []).2 = some "unexpected end of input" ∧
    (YAMLHandler toyUnmarshal [] "notFound").result =
      Result.ret (none, some "unexpected end of input") ∧
    (toyUnmarshal [1]).2 = none ∧
    (JSONHandler toyUnmarshal [1] "notFound").result =
      Result.ret (some (MapHandler (buildMap yamlRecords) "notFound"), none) := by
  refine ⟨by decide, ?_, by decide, ?_⟩
  · obtain ⟨handler, err, hres, -, hfail, -⟩ :=
      (document_handler_fails_iff_parser_fails toyUnmarshal [] "notFound").1
    obtain ⟨hh, he⟩ := hfail "unexpected end of input" (by decide)
    rw [hres, hh, he]
  · obtain ⟨handler, err, hres, -, -, hok⟩ :=
      (document_handler_fails_iff_parser_fails toyUnmarshal [1] "notFound").2
    obtain ⟨he, hh⟩ := hok (by decide)
    rw [hres, hh, he]
    rfl

/-- C4 at its own example: on the store whose bucket `urls` is `/go -> https://golang.org`,
a request for `/nope` makes `DBHandler` print the pair it scanned and return; the fallback
handler is not called, and nothing is sent to the response writer. -/
theorem DBHandler_no_match_does_nothing :
    goStore.Begin = Except.ok ⟨[("urls", ⟨[("/go", "https://golang.org")]⟩)]⟩ ∧
    (DBHandler goStore "notFound" yamlFirst (get "/nope")).trace =
      [Effect.Print "key=/go, value=https://golang.org\n"] ∧
    (DBHandler goStore "notFound" yamlFirst (get "/nope")).result = Result.ret () ∧
    Effect.ServeHTTP "notFound" (get "/nope") ∉
      (DBHandler goStore "notFound" yamlFirst (get "/nope")).trace :=
  ⟨rfl, by decide, by decide, by decide⟩

/-- C5: when the bucket `urls` exists and some key equals the request path `p`, the pairs
split into those before the first key equal to `p`, that pair `(p, v)` and the rest, and a
run of the handler prints the pairs up to and including `(p, v)`, calls `http.Redirect`
once with target `v` and status 301, and returns: no later pair is printed, the fallback
is not called and nothing is written to the body. -/
theorem DBHandler_redirects_to_first_match {η : Type} (db : DB) (fallback : η)
    (order : RangeOrder) (r : Request) (tx : Tx) (b : Bucket)
    (hbegin : db.Begin = Except.ok tx) (hbucket : tx.Bucket "urls" = some b)
    (hkey : ∃ kv ∈ b.pairs, kv.1 = r.URL.Path) :
    (∃ pre v post, b.pairs = pre ++ (r.URL.Path, v) :: post ∧
      ∀ kv ∈ pre, kv.1 ≠ r.URL.Path) ∧
    ∀ pre v post, b.pairs = pre ++ (r.URL.Path, v) :: post →
      (∀ kv ∈ pre, kv.1 ≠ r.URL.Path) →
      (DBHandler db fallback order r).trace =
        (pre ++ [(r.URL.Path, v)]).map
          (fun kv => Effect.Print ("key=" ++ kv.1 ++ ", value=" ++ kv.2 ++ "\n")) ++
        [Effect.Redirect r v StatusMovedPermanently] ∧
      (DBHandler db fallback order r).result = Result.ret () ∧
      httpTrace (DBHandler db fallback order r) =
        [Effect.Redirect r v StatusMovedPermanently] := by
  refine ⟨exists_first_match r.URL.Path b.pairs hkey, ?_⟩
  intro pre v post hsplit hpre
  have hrun := DBHandler_of_bucket db fallback order r tx b hbegin hbucket
  have htrace : (DBHandler db fallback order r).trace =
      (pre ++ [(r.URL.Path, v)]).map
        (fun kv => Effect.Print ("key=" ++ kv.1 ++ ", value=" ++ kv.2 ++ "\n")) ++
      [Effect.Redirect r v StatusMovedPermanently] := by
    rw [hrun, hsplit]
    exact scan_trace_of_first_match r pre post v hpre
  refine ⟨htrace, by rw [hrun], ?_⟩
  unfold httpTrace
  rw [htrace]
  simp [List.filter_append, List.filter_eq_nil_iff]
  rintro _ k w _ rfl
  rfl

/-- Witness of C5: in a bucket of three pairs a request for `/go` is redirected to
`https://golang.org` after the pairs `/a` and `/go` were examined; `/z` is not. -/
theorem DBHandler_redirects_to_first_match_witness :
    (∃ kv ∈ [("/a", "https://a.example"), ("/go", "https://golang.org"),
      ("/z", "https://z.example")], kv.1 = "/go") ∧
    (DBHandler threeStore "notFound" yamlFirst (get "/go")).trace =
      [Effect.Print "key=/a, value=https://a.example\n",
       Effect.Print "key=/go, value=https://golang.org\n",
       Effect.Redirect (get "/go") "https://golang.org" 301] ∧
    (DBHandler threeStore "notFound" yamlFirst (get "/go")).result = Result.ret () ∧
    httpTrace (DBHandler threeStore "notFound" yamlFirst (get "/go")) =
      [Effect.Redirect (get "/go") "https://golang.org" 301] :=
  ⟨⟨("/go", "https://golang.org"), by decide, rfl⟩,
    (DBHandler_redirects_to_first_match threeStore "notFound" yamlFirst (get "/go")
      ⟨[("urls", ⟨[("/a", "https://a.example"), ("/go", "https://golang.org"),
        ("/z", "https://z.example")]⟩)]⟩
      ⟨[("/a", "https://a.example"), ("/go", "https://golang.org"),
        ("/z", "https://z.example")]⟩
      rfl (by decide) ⟨("/go", "https://golang.org"), by decide, rfl⟩).2
      [("/a", "https://a.example")] "https://golang.org" [("/z", "https://z.example")]
      rfl (by decide)⟩

/-- C6: when `db.View` returns the error `e`, a run of the handler consists of the single
call `w.Write` with the text of `e` and returns: no redirect, no call of the fallback, no
second attempt, no status code; when `db.View` returns nil, the run writes nothing to the
body. -/
theorem DBHandler_writes_view_error {η : Type} (db : DB) (fallback : η)
    (order : RangeOrder) (r : Request) :
    (∀ e, (db.View (DBHandler.txFunc r) : Go η (Option Error)).result =
        Result.ret (some e) →
      (DBHandler db fallback order r).trace = [Effect.Write e] ∧
      (DBHandler db fallback order r).result = Result.ret ()) ∧
    ((db.View (DBHandler.txFunc r) : Go η (Option Error)).result = Result.ret none →
      ∀ body, Effect.Write body ∉ (DBHandler db fallback order r).trace) := by
  have hview := @View_txFunc_result η db r
  cases hbegin : db.Begin with
  | error err =>
    have h1 := hview.1 err hbegin
    have hrun := DBHandler_of_begin_error db fallback order r err hbegin
    refine ⟨?_, ?_⟩
    · intro e he
      rw [h1] at he
      cases he
      rw [hrun]
      exact ⟨rfl, rfl⟩
    · intro hnone
      rw [h1] at hnone
      cases hnone
  | ok tx =>
    cases hbucket : tx.Bucket "urls" with
    | none =>
      have h3 := hview.2.2 tx hbegin hbucket
      refine ⟨?_, ?_⟩
      · intro e he
        rw [h3] at he
        cases he
      · intro hnone
        rw [h3] at hnone
        cases hnone
    | some b =>
      have h2 := hview.2.1 tx b hbegin hbucket
      refine ⟨?_, ?_⟩
      · intro e he
        rw [h2] at he
        cases he
      · intro _ body
        rw [DBHandler_of_bucket db fallback order r tx b hbegin hbucket]
        exact scan_no_write r b.pairs body

/-- Witness of C6: on a store that cannot open a transaction the handler writes the error
text `database not open`; on the store with the bucket `urls` it writes nothing. -/
theorem DBHandler_writes_view_error_witness :
    (closedStore.View (DBHandler.txFunc (get "/go")) : Go String (Option Error)).result =
      Result.ret (some "database not open") ∧
    (DBHandler closedStore "notFound" yamlFirst (get "/go")).trace =
      [Effect.Write "database not open"] ∧
    (goStore.View (DBHandler.txFunc (get "/go")) : Go String (Option Error)).result =
      Result.ret none ∧
    Effect.Write "database not open" ∉
      (DBHandler goStore "notFound" yamlFirst (get "/go")).trace :=
  ⟨by decide,
    ((DBHandler_writes_view_error closedStore "notFound" yamlFirst (get "/go")).1
      "database not open" (by decide)).1,
    by decide,
    (DBHandler_writes_view_error goStore "notFound" yamlFirst (get "/go")).2 (by decide)
      "database not open"⟩

/-- C7 at a store without the bucket `urls`: the transaction opens, `tx.Bucket` gives nil,
and the run of the handler ends in the nil-dereference panic of `b.Cursor()`; nothing is
written to the response body. -/
theorem DBHandler_missing_bucket_panics :
    noUrlsStore.Begin = Except.ok ⟨[("users", ⟨[("/go", "https://golang.org")]⟩)]⟩ ∧
    Tx.Bucket ⟨[("users", ⟨[("/go", "https://golang.org")]⟩)]⟩ "urls" = none ∧
    (DBHandler noUrlsStore "notFound" yamlFirst (get "/go")).result =
      Result.panic nilDereference ∧
    (DBHandler noUrlsStore "notFound" yamlFirst (get "/go")).trace = [] ∧
    bodyWrites (DBHandler noUrlsStore "notFound" yamlFirst (get "/go")) = 0 :=
  ⟨rfl, by decide, by decide, by decide, by decide⟩

/-- C8: for record lists that are permutations of each other with pairwise distinct paths,
`buildMap` gives the same map; so when a YAML document parses to one and a JSON document
to the other, both constructors succeed with the same handler, and runs of the two
handlers on a request make the same calls apart from printing, whatever order each
`range` takes. -/
theorem buildMap_independent_of_record_order {η : Type} (L1 L2 : List UrlMap)
    (hperm : L1.Perm L2) (hnodup : (L1.map UrlMap.Path).Nodup) :
    buildMap L1 = buildMap L2 ∧
    ∀ (yamlUnmarshal jsonUnmarshal : Unmarshal) (yml jsn : Bytes) (fallback : η),
      yamlUnmarshal yml = (L1, none) → jsonUnmarshal jsn = (L2, none) →
      ∃ hy hj,
        (YAMLHandler yamlUnmarshal yml fallback).result = Result.ret (some hy, none) ∧
        (JSONHandler jsonUnmarshal jsn fallback).result = Result.ret (some hj, none) ∧
        hy = hj ∧
        ∀ (order1 order2 : RangeOrder) (r : Request),
          order1.Enumerates (buildMap L1) → order2.Enumerates (buildMap L2) →
          httpTrace (hy order1 r) = httpTrace (hj order2 r) := by
  have hmap := buildMap_perm L1 L2 hperm hnodup
  refine ⟨hmap, ?_⟩
  intro yamlUnmarshal jsonUnmarshal yml jsn fallback hy hj
  refine ⟨MapHandler (buildMap L1) fallback, MapHandler (buildMap L2) fallback, ?_, ?_, ?_, ?_⟩
  · simp [YAMLHandler, hy, Go.ret]
  · simp [JSONHandler, hj, Go.ret, Go.emit]
  · rw [hmap]
  · intro order1 order2 r h1 h2
    rw [httpTrace_MapHandler _ fallback order1 r h1, httpTrace_MapHandler _ fallback order2 r h2,
      hmap]

/-- Witness of C8: the two example records in either order give the same rule set. -/
theorem buildMap_independent_of_record_order_witness :
    yamlRecords.Perm jsonRecords ∧ (yamlRecords.map UrlMap.Path).Nodup ∧
    buildMap yamlRecords = buildMap jsonRecords :=
  ⟨List.Perm.swap _ _ _, by decide,
    (@buildMap_independent_of_record_order String yamlRecords jsonRecords
      (List.Perm.swap _ _ _) (by decide)).1⟩

/-- C9 at the store whose bucket `urls` is `/go -> https://golang.org`: the run of
`DBHandler` for `/nope` returns with none of the three outcomes, no redirect, no call of
the fallback and no text written to the body. -/
theorem DBHandler_no_match_has_no_outcome :
    (DBHandler goStore "notFound" urlshortFirst (get "/nope")).result = Result.ret () ∧
    redirects (DBHandler goStore "notFound" urlshortFirst (get "/nope")) = 0 ∧
    fallbackCalls "notFound" (DBHandler goStore "notFound" urlshortFirst (get "/nope")) = 0 ∧
    bodyWrites (DBHandler goStore "notFound" urlshortFirst (get "/nope")) = 0 :=
  ⟨by decide, by decide, by decide, by decide⟩

/-- C10: for any two orders in which `range` may visit the entries of `R`, the runs of
the handler make the same calls apart from printing, and these are the calls of the
indexed lookup `R[p]`: a redirect to `R[p]` when present, the fallback when absent; in
either order at most one entry has the key `p`. -/
theorem MapHandler_scan_refines_indexed_lookup {η : Type} (R : GoMap) (fallback : η)
    (order1 order2 : RangeOrder) (r : Request) (h1 : order1.Enumerates R)
    (h2 : order2.Enumerates R) :
    httpTrace (MapHandler R fallback order1 r) = httpTrace (MapHandler R fallback order2 r) ∧
    httpTrace (MapHandler R fallback order1 r) = indexedLookup R fallback r ∧
    (MapHandler R fallback order1 r).result = (MapHandler R fallback order2 r).result ∧
    ((order1 R).filter (fun e => e.1 = r.URL.Path)).length ≤ 1 := by
  refine ⟨?_, httpTrace_MapHandler R fallback order1 r h1, ?_, ?_⟩
  · rw [httpTrace_MapHandler R fallback order1 r h1, httpTrace_MapHandler R fallback order2 r h2]
  · exact (range_result fallback r (order1 R)).trans (range_result fallback r (order2 R)).symm
  · have hnd : ((order1 R).map Sigma.fst).Nodup := h1.nodupKeys
    have hcount := List.nodup_iff_count_le_one.1 hnd r.URL.Path
    have hlen : ((order1 R).filter (fun e => e.1 = r.URL.Path)).length =
        ((order1 R).map Sigma.fst).count r.URL.Path := by
      rw [List.count, List.countP_map, List.countP_eq_length_filter]
      congr 1
    rw [hlen]
    exact hcount

/-- Witness of C10: the example rule set visited in its two orders. -/
theorem MapHandler_scan_refines_indexed_lookup_witness :
    yamlFirst.Enumerates exampleRules ∧ urlshortFirst.Enumerates exampleRules ∧
    httpTrace (MapHandler exampleRules "notFound" yamlFirst (get "/urlshort-go")) =
      httpTrace (MapHandler exampleRules "notFound" urlshortFirst (get "/urlshort-go")) ∧
    httpTrace (MapHandler exampleRules "notFound" yamlFirst (get "/urlshort-go")) =
      indexedLookup exampleRules "notFound" (get "/urlshort-go") :=
  ⟨by decide, by decide,
    (MapHandler_scan_refines_indexed_lookup exampleRules "notFound" yamlFirst urlshortFirst
      (get "/urlshort-go") (by decide) (by decide)).1,
    (MapHandler_scan_refines_indexed_lookup exampleRules "notFound" yamlFirst urlshortFirst
      (get "/urlshort-go") (by decide) (by decide)).2.1⟩

end urlshort
